import Mathlib

/-!
# Verification of the slash-command routing core of `vscode-azure-agent`

Shallow embedding of the command-routing layer:

* `src/src/chat/agent.ts` — the Top-Level Router (`handler`), the
  `followUpProvider` and the `getCommands` listing, embedded directly from
  the source.
* `src/unnamed/part_000` — the declared data shapes (`SkillCommandResult`,
  `SkillCommandResultMetadata`, command configs), embedded as structures.

The `SlashCommandsOwner` implementation (`src/chat/slashCommands.ts`) and the
Execution Coordinator are referenced by the sources but their code is not
present in this snapshot; where a property depends on them they are modelled
from the specification (each such definition's doc comment says so).

Asynchrony is modelled by ordinary sequential evaluation (owners are awaited
strictly in turn in the source); the cancellation token, chat context and
response stream object are not modelled except for the ordered event trace of
writes/invocations that the temporal claims need.
-/

/-- A follow-up suggestion surfaced to the user (vscode.ChatFollowup).
Only identity matters for the routing layer, so it is a wrapped prompt. -/
structure ChatFollowup where
  prompt : String
deriving DecidableEq, Repr

/-- `SkillCommandResultMetadata` from `src/unnamed/part_000`: the chain of
slash command handlers that produced a result and a unique result identifier,
both populated by the agent. The source declares `resultId` as a string
produced by an unspecified fresh-id generator (the generating code is not in
this snapshot); the identifier domain is modelled as `Nat`, which keeps ids
opaque while letting freshness be stated. The open `[key: string]: unknown`
bag is not modelled. -/
structure SkillCommandResultMetadata where
  handlerChain : Option (List String) := none
  resultId : Option Nat := none
deriving DecidableEq, Repr

/-- The `chatAgentResult` component of a `SkillCommandResult`
(`Omit<vscode.ChatResult, 'metadata'> & { metadata: SkillCommandResultMetadata }`).
Of `vscode.ChatResult` only the metadata is consumed by this layer. -/
structure ChatAgentResult where
  metadata : SkillCommandResultMetadata
deriving DecidableEq, Repr

/-- `SkillCommandResult` from `src/unnamed/part_000`: a chat result plus an
optional follow-up list. `SlashCommandHandlerResult` in the sources is this
shape or `undefined`, i.e. `Option SkillCommandResult` here. -/
structure SkillCommandResult where
  chatAgentResult : ChatAgentResult
  followUp : Option (List ChatFollowup) := none
deriving DecidableEq, Repr

/-- `AgentRequest` from `src/src/chat/agent.ts` (lines 19-26): optional
explicit command plus the raw user prompt. The chat context, response stream
and cancellation token fields carry no routing-relevant data and are omitted. -/
structure AgentRequest where
  command : Option String
  userPrompt : String
deriving DecidableEq, Repr

/-- The fields of `vscode.ChatRequest` the handler reads (`request.command`,
`request.prompt`). -/
structure ChatRequest where
  command : Option String
  prompt : String
deriving DecidableEq, Repr

/-- The construction of the `AgentRequest` from the incoming `vscode.ChatRequest`
(`agent.ts` lines 103-109). -/
def mkAgentRequest (request : ChatRequest) : AgentRequest :=
  { command := request.command, userPrompt := request.prompt }

/-- One observable action of the top-level handler, in order: a progress write
to the response stream (`agent.ts` line 112) or the invocation of the owner at
a given index of the handler list (`agent.ts` line 116). -/
inductive AgentEvent
  | progress (msg : String)
  | invokeOwner (idx : Nat)
deriving DecidableEq, Repr

/-- The behaviour of one owner as the Top-Level Router sees it
(`IAgentRequestHandler`, `agent.ts` lines 28-41): `handleRequestOrPrompt`
resolves a request given the handler chain so far (`none` = unresolved), and
`getFollowUpForLastHandledSlashCommand` answers follow-up queries. -/
structure OwnerBehavior where
  handleRequestOrPrompt : AgentRequest → List String → Option SkillCommandResult
  getFollowUpForLastHandledSlashCommand : ChatAgentResult → Option (List ChatFollowup)

/-- The owner loop of `handler` (`agent.ts` lines 114-120): try each owner in
list order, each invoked with the empty handler chain, stopping at the first
result that is not `undefined`. Returns the loop's result and the trace of
owner invocations (by index). -/
def runOwners : List OwnerBehavior → Nat → AgentRequest → Option SkillCommandResult × List AgentEvent
  | [], _, _ => (none, [])
  | o :: os, idx, req =>
    match o.handleRequestOrPrompt req [] with
    | some r => (some r, [AgentEvent.invokeOwner idx])
    | none =>
      let rest := runOwners os (idx + 1) req
      (rest.1, AgentEvent.invokeOwner idx :: rest.2)

/-- The follow-up trim of `agent.ts` line 123:
`handleResult.followUp = handleResult.followUp?.slice(0, maxFollowUps)`. -/
def trimFollowUps (maxFollowUps : Nat) (r : SkillCommandResult) : SkillCommandResult :=
  { r with followUp := r.followUp.map (List.take maxFollowUps) }

/-- The outcome of one top-level `handler` call: the value returned to the
chat surface (`chatAgentResult` of the winner, or `undefined`), the state of
`handleResult` after the follow-up trim, and the ordered event trace. -/
structure HandlerOutcome where
  result : Option ChatAgentResult
  finalHandleResult : Option SkillCommandResult
  events : List AgentEvent
deriving Repr

/-- The top-level `handler` of `agent.ts` (lines 102-128), parametric in the
three owner objects of line 110 (`agentHiddenSlashCommandsOwner`,
`agentBenchmarker`, `agentSlashCommandsOwner`, in that order) and in the
`maxFollowUps` constant imported from `agentConsts`. -/
def handler (agentHiddenSlashCommandsOwner agentBenchmarker agentSlashCommandsOwner : OwnerBehavior)
    (maxFollowUps : Nat) (request : ChatRequest) : HandlerOutcome :=
  let agentRequest := mkAgentRequest request
  let handlers := [agentHiddenSlashCommandsOwner, agentBenchmarker, agentSlashCommandsOwner]
  let loopOut := runOwners handlers 0 agentRequest
  let events := AgentEvent.progress "Processing request..." :: loopOut.2
  match loopOut.1 with
  | some handleResult =>
    { result := some (trimFollowUps maxFollowUps handleResult).chatAgentResult
      finalHandleResult := some (trimFollowUps maxFollowUps handleResult)
      events := events }
  | none => { result := none, finalHandleResult := none, events := events }

/-- First element of a list of options that is `some`, if any (the
"first non-undefined wins" shape shared by the owner and provider loops). -/
def firstSome {α : Type} : List (Option α) → Option α
  | [] => none
  | o :: os =>
    match o with
    | some a => some a
    | none => firstSome os

/-- Indices of the owners invoked, read off an event trace. -/
def invokedIdxs (events : List AgentEvent) : List Nat :=
  events.filterMap fun e =>
    match e with
    | AgentEvent.invokeOwner i => some i
    | _ => none

/-- The provider loop of `followUpProvider` (`agent.ts` lines 134-139):
first defined follow-up list wins. Returns the result and the indices of the
providers consulted. -/
def runProviders : List OwnerBehavior → Nat → ChatAgentResult → Option (List ChatFollowup) × List Nat
  | [], _, _ => (none, [])
  | p :: ps, idx, result =>
    match p.getFollowUpForLastHandledSlashCommand result with
    | some fu => (some fu, [idx])
    | none =>
      let rest := runProviders ps (idx + 1) result
      (rest.1, idx :: rest.2)

/-- Outcome of `followUpProvider`: the returned list and the indices of the
providers consulted. -/
structure FollowUpOutcome where
  followUps : List ChatFollowup
  consulted : List Nat
deriving DecidableEq, Repr

/-- `followUpProvider` of `agent.ts` (lines 130-141), parametric in the three
owner objects of line 131. The final `followUp || []` of line 140 maps
`undefined` to the empty list while keeping a defined-but-empty list as is
(an empty array is truthy in the source language). -/
def followUpProvider (agentHiddenSlashCommandsOwner agentBenchmarker agentSlashCommandsOwner : OwnerBehavior)
    (result : ChatAgentResult) : FollowUpOutcome :=
  let providers := [agentHiddenSlashCommandsOwner, agentBenchmarker, agentSlashCommandsOwner]
  let out := runProviders providers 0 result
  { followUps := out.1.getD [], consulted := out.2 }

/-- Modelled from the spec: the per-command configuration held by a
`SlashCommandsOwner` registry (`src/chat/slashCommands.ts`, not present in
this snapshot). `shortDescription` is the display text that `getCommands` in
`agent.ts` line 144 reads (the spec calls it the command's display name);
`intentDescription` feeds the classifier; `handler` is the command's handler,
which may fail (throw/reject), modelled as `Except`. -/
structure SlashCommandConfig where
  shortDescription : String
  intentDescription : Option String := none
  handler : AgentRequest → Except String SkillCommandResult

/-- Modelled from the spec: the state of a `SlashCommandsOwner`
(`src/chat/slashCommands.ts`, not present in this snapshot): an
insertion-ordered registry of named commands, the two distinguished fallbacks
(`noInput` given as a command name and `default` as a directly attached
handler, the two forms used at `agent.ts` lines 46 and 82-85), and the
`disableIntentDetection` flag. -/
structure SlashCommandsOwner where
  invokeableSlashCommands : List (String × SlashCommandConfig)
  noInput : Option String := none
  defaultHandler : Option (AgentRequest → Except String SkillCommandResult) := none
  disableIntentDetection : Bool := false

/-- Name lookup in an owner's registry. -/
def lookupCommand (owner : SlashCommandsOwner) (name : String) : Option SlashCommandConfig :=
  (owner.invokeableSlashCommands.find? fun p => p.1 == name).map Prod.snd

/-- The "trimmed prompt is empty" test of the resolver (spec section 4.2
rule 2): the prompt with leading and trailing whitespace removed is empty
exactly when every character of the prompt is whitespace, which is how the
test is rendered here. -/
def promptTrimmedEmpty (s : String) : Bool :=
  s.toList.all Char.isWhitespace

/-- Modelled from the spec: what the Dispatch Resolver commits to — a named
registry command, the anonymous registry `default` handler, or unresolved. -/
inductive Selection
  | named (name : String) (config : SlashCommandConfig)
  | defaultFallback (h : AgentRequest → Except String SkillCommandResult)
  | unresolved

/-- Modelled from the spec: the Dispatch Resolver of `SlashCommandsOwner`
(`src/chat/slashCommands.ts`, not present in this snapshot), spec section 4.2,
rules applied strictly in order: (1) explicit command present in the registry,
(2) configured `noInput` on empty trimmed prompt with no command, (3) intent
classification when not disabled and the prompt is non-empty, (4) registry
`default`, (5) unresolved. The classifier is a pluggable dependency receiving
the prompt and the `(name, intentDescription)` candidates. The returned
`Bool` records whether the classifier was invoked. -/
def resolveCommand (classifier : String → List (String × Option String) → Option String)
    (owner : SlashCommandsOwner) (request : AgentRequest) : Selection × Bool :=
  match request.command.bind fun c => (lookupCommand owner c).map fun cfg => (c, cfg) with
  | some (c, cfg) => (Selection.named c cfg, false)
  | none =>
    match
      if request.command.isNone && promptTrimmedEmpty request.userPrompt then
        owner.noInput.bind fun n => (lookupCommand owner n).map fun cfg => (n, cfg)
      else none
    with
    | some (n, cfg) => (Selection.named n cfg, false)
    | none =>
      let candidates := owner.invokeableSlashCommands.map fun p => (p.1, p.2.intentDescription)
      let classified :=
        if !owner.disableIntentDetection && !promptTrimmedEmpty request.userPrompt then
          (classifier request.userPrompt candidates, true)
        else (none, false)
      match classified.1.bind fun n => (lookupCommand owner n).map fun cfg => (n, cfg) with
      | some (n, cfg) => (Selection.named n cfg, classified.2)
      | none =>
        match owner.defaultHandler with
        | some h => (Selection.defaultFallback h, classified.2)
        | none => (Selection.unresolved, classified.2)

/-- Runs the committed selection's handler on the request; `none` when
nothing was selected. -/
def runSelected (sel : Selection) (request : AgentRequest) :
    Option (Except String SkillCommandResult) :=
  match sel with
  | Selection.named _ cfg => some (cfg.handler request)
  | Selection.defaultFallback h => some (h request)
  | Selection.unresolved => none

/-- Modelled from the spec: an owner's `handleRequestOrPrompt`
(`src/chat/slashCommands.ts`, not present in this snapshot): resolve, then
execute the committed handler; a handler that throws/rejects is caught and
reported as unresolved (`none`), exactly like no command matching at all
(spec sections 4.4 and 7). Handler-chain and result-id stamping by the
Execution Coordinator are modelled separately. -/
def ownerHandleRequestOrPrompt (classifier : String → List (String × Option String) → Option String)
    (owner : SlashCommandsOwner) (request : AgentRequest) : Option SkillCommandResult :=
  match runSelected (resolveCommand classifier owner request).1 request with
  | some (Except.ok r) => some r
  | some (Except.error _) => none
  | none => none

/-- Modelled from the spec: `getSlashCommands` of the user-visible owner
(`src/chat/slashCommands.ts`, not present in this snapshot): the registry's
`(name, config)` entries in registration order (spec section 4.1: listing
order is registration order). -/
def getSlashCommands (owner : SlashCommandsOwner) : List (String × SlashCommandConfig) :=
  owner.invokeableSlashCommands

/-- `getCommands` of `agent.ts` (lines 143-145), parametric in the three
owner objects of the module: only `agentSlashCommandsOwner` (the user-visible
owner) is consulted; each of its registry entries is mapped to a
`(name, description)` pair with `config.shortDescription` as description. -/
def getCommands (agentHiddenSlashCommandsOwner agentBenchmarker agentSlashCommandsOwner : SlashCommandsOwner) :
    List (String × String) :=
  (getSlashCommands agentSlashCommandsOwner).map fun p => (p.1, p.2.shortDescription)

/-- Modelled from the spec: the per-process state of the Execution
Coordinator (spec section 4.4, code not present in this snapshot): the
fresh-identifier source (a counter, so every dispatch draws a new id) and the
most-recent-results follow-up cache keyed by `resultId`. -/
structure CoordinatorState where
  nextId : Nat
  followUpCache : List (Nat × List ChatFollowup)

/-- Modelled from the spec: one dispatch through the Execution Coordinator
(spec section 4.4): overwrite `metadata.resultId` with a freshly generated
identifier (and `metadata.handlerChain` with the accumulated chain),
regardless of what the inner handler supplied, and record the result's
follow-ups in the cache under the new id. -/
def dispatchResult (st : CoordinatorState) (handlerChain : List String)
    (raw : SkillCommandResult) : SkillCommandResult × CoordinatorState :=
  let rid := st.nextId
  let stamped : SkillCommandResult :=
    { raw with
      chatAgentResult :=
        { metadata := { handlerChain := some handlerChain, resultId := some rid } } }
  (stamped,
   { nextId := st.nextId + 1
     followUpCache := (rid, raw.followUp.getD []) :: st.followUpCache })

/-- A sequence of dispatches through the coordinator, returning the stamped
results in order together with the final state. -/
def runDispatches (st : CoordinatorState) :
    List (List String × SkillCommandResult) → List SkillCommandResult × CoordinatorState
  | [] => ([], st)
  | (chain, raw) :: rest =>
    let out := dispatchResult st chain raw
    let tail := runDispatches out.2 rest
    (out.1 :: tail.1, tail.2)

/-- Modelled from the spec: `getFollowUpForLastHandledSlashCommand`
(spec section 4.4): read the `resultId` from the passed-back result's
metadata and look it up in the cache; a result with no id or an unknown id
yields "no follow-up" (`none`), not an error. -/
def getFollowUpForLastHandledSlashCommand (st : CoordinatorState)
    (result : ChatAgentResult) : Option (List ChatFollowup) :=
  result.metadata.resultId.bind fun rid =>
    (st.followUpCache.find? fun e => e.1 == rid).map Prod.snd

/-- Modelled from the spec: the nesting structure of a dispatched skill
handler (spec sections 4.3 and 4.4): a handler either finishes at its own
level or delegates into a nested owner that commits to one inner command. -/
inductive SkillBehavior
  | leaf
  | delegate (innerName : String) (inner : SkillBehavior)

/-- Number of nesting levels of a delegation: 1 for a handler that does not
delegate, plus 1 per nested delegation. -/
def delegationDepth : SkillBehavior → Nat
  | SkillBehavior.leaf => 1
  | SkillBehavior.delegate _ b => 1 + delegationDepth b

/-- Modelled from the spec: the handler chain accumulated by nested dispatch
(spec section 4.4): the committed command's name is appended to the running
chain before its handler runs, and a delegating handler dispatches the inner
command against the extended chain; the final chain is recorded on the
result. -/
def nestedDispatchChain (name : String) (b : SkillBehavior) (handlerChain : List String) :
    List String :=
  let chain := handlerChain ++ [name]
  match b with
  | SkillBehavior.leaf => chain
  | SkillBehavior.delegate innerName inner => nestedDispatchChain innerName inner chain

/-- The names contributed below a top-level command by its nested
delegations, outermost first. -/
def innerNames : SkillBehavior → List String
  | SkillBehavior.leaf => []
  | SkillBehavior.delegate n b => n :: innerNames b

/-- An owner with constant behaviour, used as a concrete instance. -/
def constOwner (r : Option SkillCommandResult) (fu : Option (List ChatFollowup)) : OwnerBehavior :=
  { handleRequestOrPrompt := fun _ _ => r
    getFollowUpForLastHandledSlashCommand := fun _ => fu }

/-- A concrete follow-up list longer than the trim bound used in witnesses. -/
def sampleFollowups : List ChatFollowup :=
  [{ prompt := "a" }, { prompt := "b" }, { prompt := "c" }]

/-- A concrete inner-handler result carrying three follow-ups. -/
def sampleResult : SkillCommandResult :=
  { chatAgentResult := { metadata := {} }, followUp := some sampleFollowups }

/-- A concrete incoming chat request. -/
def sampleRequest : ChatRequest := { command := none, prompt := "hello" }

/-- Claim C1: the Top-Level Router tries the owners in the fixed order
hidden-diagnostic owner, benchmarker, user-visible owner; the first owner
whose `handleRequestOrPrompt` is not `undefined` supplies the result, and no
owner after it is invoked for this request. -/
theorem topLevelRouter_first_owner_wins
    (hidden bench user : OwnerBehavior) (maxFollowUps : Nat) (request : ChatRequest) :
    (handler hidden bench user maxFollowUps request).finalHandleResult
        = (firstSome [hidden.handleRequestOrPrompt (mkAgentRequest request) [],
            bench.handleRequestOrPrompt (mkAgentRequest request) [],
            user.handleRequestOrPrompt (mkAgentRequest request) []]).map
            (trimFollowUps maxFollowUps)
      ∧ (handler hidden bench user maxFollowUps request).result
        = (firstSome [hidden.handleRequestOrPrompt (mkAgentRequest request) [],
            bench.handleRequestOrPrompt (mkAgentRequest request) [],
            user.handleRequestOrPrompt (mkAgentRequest request) []]).map
            (fun r => (trimFollowUps maxFollowUps r).chatAgentResult)
      ∧ invokedIdxs (handler hidden bench user maxFollowUps request).events
        = (match hidden.handleRequestOrPrompt (mkAgentRequest request) [] with
           | some _ => [0]
           | none =>
             match bench.handleRequestOrPrompt (mkAgentRequest request) [] with
             | some _ => [0, 1]
             | none => [0, 1, 2]) := by
  cases hh : hidden.handleRequestOrPrompt (mkAgentRequest request) [] <;>
    cases hb : bench.handleRequestOrPrompt (mkAgentRequest request) [] <;>
      cases hu : user.handleRequestOrPrompt (mkAgentRequest request) [] <;>
        simp [handler, runOwners, firstSome, invokedIdxs, hh, hb, hu]

/-- Claim C2: when some owner resolves the request, the follow-up list on the
resulting `handleResult` is trimmed to at most `maxFollowUps` entries after
the winning result is obtained and before the handler returns, even when the
inner handler supplied a longer list. -/
theorem topLevelRouter_trims_followUps
    (hidden bench user : OwnerBehavior) (maxFollowUps : Nat) (request : ChatRequest)
    (raw : SkillCommandResult) (fu : List ChatFollowup)
    (hwin : (runOwners [hidden, bench, user] 0 (mkAgentRequest request)).1 = some raw)
    (hfu : raw.followUp = some fu) :
    (handler hidden bench user maxFollowUps request).finalHandleResult
        = some (trimFollowUps maxFollowUps raw)
      ∧ (trimFollowUps maxFollowUps raw).followUp = some (fu.take maxFollowUps)
      ∧ (fu.take maxFollowUps).length ≤ maxFollowUps := by
  refine ⟨?_, ?_, ?_⟩
  · simp [handler, hwin]
  · simp [trimFollowUps, hfu]
  · simp [List.length_take]

/-- Witness for claim C2: an inner handler supplies three follow-ups while
the maximum is two; the trimmed list has two entries. -/
theorem topLevelRouter_trims_followUps_witness :
    ((runOwners [constOwner (some sampleResult) none, constOwner none none,
          constOwner none none] 0 (mkAgentRequest sampleRequest)).1 = some sampleResult
      ∧ sampleResult.followUp = some sampleFollowups)
    ∧ ((handler (constOwner (some sampleResult) none) (constOwner none none)
          (constOwner none none) 2 sampleRequest).finalHandleResult
            = some (trimFollowUps 2 sampleResult)
        ∧ (trimFollowUps 2 sampleResult).followUp = some (sampleFollowups.take 2)
        ∧ (sampleFollowups.take 2).length ≤ 2) :=
  ⟨⟨rfl, rfl⟩,
   topLevelRouter_trims_followUps (constOwner (some sampleResult) none)
     (constOwner none none) (constOwner none none) 2 sampleRequest sampleResult
     sampleFollowups rfl rfl⟩

/-- Claim C3: when every owner leaves the request unresolved, the top-level
handler returns `undefined` (an empty turn); since every owner outcome is an
ordinary value, no exception reaches the UI layer. -/
theorem allOwnersUnresolved_empty_turn
    (hidden bench user : OwnerBehavior) (maxFollowUps : Nat) (request : ChatRequest)
    (hh : hidden.handleRequestOrPrompt (mkAgentRequest request) [] = none)
    (hb : bench.handleRequestOrPrompt (mkAgentRequest request) [] = none)
    (hu : user.handleRequestOrPrompt (mkAgentRequest request) [] = none) :
    (handler hidden bench user maxFollowUps request).result = none
      ∧ (handler hidden bench user maxFollowUps request).finalHandleResult = none := by
  simp [handler, runOwners, hh, hb, hu]

/-- Witness for claim C3: three owners that resolve nothing produce the empty
turn. -/
theorem allOwnersUnresolved_empty_turn_witness :
    ((constOwner none none).handleRequestOrPrompt (mkAgentRequest sampleRequest) [] = none
      ∧ (constOwner none none).handleRequestOrPrompt (mkAgentRequest sampleRequest) [] = none
      ∧ (constOwner none none).handleRequestOrPrompt (mkAgentRequest sampleRequest) [] = none)
    ∧ ((handler (constOwner none none) (constOwner none none) (constOwner none none)
          3 sampleRequest).result = none
        ∧ (handler (constOwner none none) (constOwner none none) (constOwner none none)
            3 sampleRequest).finalHandleResult = none) :=
  ⟨⟨rfl, rfl, rfl⟩,
   allOwnersUnresolved_empty_turn (constOwner none none) (constOwner none none)
     (constOwner none none) 3 sampleRequest rfl rfl rfl⟩

/-- Every event the owner loop emits is an owner invocation. -/
theorem runOwners_events_invokes (os : List OwnerBehavior) (idx : Nat) (req : AgentRequest) :
    (runOwners os idx req).2 = (invokedIdxs (runOwners os idx req).2).map AgentEvent.invokeOwner := by
  induction os generalizing idx with
  | nil => simp [runOwners, invokedIdxs]
  | cons o os ih =>
    cases h : o.handleRequestOrPrompt req [] with
    | some r => simp [runOwners, invokedIdxs, h]
    | none =>
      simp only [runOwners, h, invokedIdxs, List.filterMap_cons, List.map_cons]
      exact congrArg _ (ih (idx + 1))

/-- Claim C4: the handler's event trace starts with the "processing" progress
write, and everything after it is an owner invocation — so the progress write
precedes the invocation of every owner. -/
theorem progress_precedes_owner_invocations
    (hidden bench user : OwnerBehavior) (maxFollowUps : Nat) (request : ChatRequest) :
    ∃ idxs : List Nat,
      (handler hidden bench user maxFollowUps request).events
        = AgentEvent.progress "Processing request..." :: idxs.map AgentEvent.invokeOwner := by
  refine ⟨invokedIdxs (runOwners [hidden, bench, user] 0 (mkAgentRequest request)).2, ?_⟩
  have h := runOwners_events_invokes [hidden, bench, user] 0 (mkAgentRequest request)
  cases hw : (runOwners [hidden, bench, user] 0 (mkAgentRequest request)).1 with
  | none => simpa [handler, hw] using h
  | some r => simpa [handler, hw] using h

/-- Claim C10: the top-level `followUpProvider` consults the owners in the
fixed order hidden, benchmarker, user-visible, returns the first defined
follow-up list (owners after it are not consulted, even when that list is
empty), and returns the empty list — never `undefined` — when every owner
returns `undefined`. -/
theorem followUpProvider_first_defined_wins
    (hidden bench user : OwnerBehavior) (result : ChatAgentResult) :
    (followUpProvider hidden bench user result).followUps
        = (firstSome [hidden.getFollowUpForLastHandledSlashCommand result,
            bench.getFollowUpForLastHandledSlashCommand result,
            user.getFollowUpForLastHandledSlashCommand result]).getD []
      ∧ (followUpProvider hidden bench user result).consulted
        = (match hidden.getFollowUpForLastHandledSlashCommand result with
           | some _ => [0]
           | none =>
             match bench.getFollowUpForLastHandledSlashCommand result with
             | some _ => [0, 1]
             | none => [0, 1, 2]) := by
  cases hh : hidden.getFollowUpForLastHandledSlashCommand result <;>
    cases hb : bench.getFollowUpForLastHandledSlashCommand result <;>
      cases hu : user.getFollowUpForLastHandledSlashCommand result <;>
        simp [followUpProvider, runProviders, firstSome, hh, hb, hu]

/-- A concrete command config whose handler succeeds. -/
def deployConfig : SlashCommandConfig :=
  { shortDescription := "Deploy to Azure"
    intentDescription := some "deploying an app"
    handler := fun _ => Except.ok sampleResult }

/-- A concrete command config whose handler throws. -/
def boomConfig : SlashCommandConfig :=
  { shortDescription := "Boom"
    handler := fun _ => Except.error "boom" }

/-- A concrete owner holding one deployable command. -/
def deployOwner : SlashCommandsOwner :=
  { invokeableSlashCommands := [("deploy", deployConfig)] }

/-- A concrete owner holding one command whose handler throws. -/
def boomOwner : SlashCommandsOwner :=
  { invokeableSlashCommands := [("boom", boomConfig)] }

/-- A concrete owner with an empty registry and no fallbacks. -/
def emptyOwner : SlashCommandsOwner :=
  { invokeableSlashCommands := [] }

/-- A classifier that always claims a match, to show explicit commands ignore
it. -/
def eagerClassifier : String → List (String × Option String) → Option String :=
  fun _ _ => some "deploy"

/-- Claim C5: when the request's explicit command name is present in the
owner's registry, resolution selects exactly that command — for every
classifier, every prompt text and every intent-detection setting — and the
classifier is never invoked (the returned flag is `false`). -/
theorem explicit_command_overrides_classifier
    (classifier : String → List (String × Option String) → Option String)
    (owner : SlashCommandsOwner) (request : AgentRequest)
    (c : String) (cfg : SlashCommandConfig)
    (hcmd : request.command = some c)
    (hreg : lookupCommand owner c = some cfg) :
    resolveCommand classifier owner request = (Selection.named c cfg, false) := by
  simp [resolveCommand, hcmd, hreg]

/-- Witness for claim C5: an explicit `/deploy` with an unrelated prompt and
a classifier that would match something resolves to `deploy` without
classification. -/
theorem explicit_command_overrides_classifier_witness :
    (({ command := some "deploy", userPrompt := "tell me a joke" } : AgentRequest).command
        = some "deploy"
      ∧ lookupCommand deployOwner "deploy" = some deployConfig)
    ∧ resolveCommand eagerClassifier deployOwner
        { command := some "deploy", userPrompt := "tell me a joke" }
        = (Selection.named "deploy" deployConfig, false) :=
  ⟨⟨rfl, rfl⟩,
   explicit_command_overrides_classifier eagerClassifier deployOwner
     { command := some "deploy", userPrompt := "tell me a joke" } "deploy" deployConfig
     rfl rfl⟩

/-- Claim C6: the command listing maps each entry of the user-visible owner's
registry, in registration order, to its `(name, description)` pair, has
exactly one pair per registered command, and is unchanged by whatever the
hidden-diagnostic and benchmarking owners hold. -/
theorem getCommands_user_visible_only
    (hidden bench user : SlashCommandsOwner) :
    getCommands hidden bench user
        = user.invokeableSlashCommands.map (fun p => (p.1, p.2.shortDescription))
      ∧ (getCommands hidden bench user).length = user.invokeableSlashCommands.length
      ∧ ∀ hidden2 bench2 : SlashCommandsOwner,
          getCommands hidden2 bench2 user = getCommands hidden bench user :=
  ⟨rfl, by simp [getCommands, getSlashCommands], fun _ _ => rfl⟩

/-- Claim C7: a selected handler that throws makes the owner's
`handleRequestOrPrompt` return unresolved (`none`) instead of propagating the
exception — the same outward outcome as an owner at which no command matched
at all. -/
theorem throwing_handler_indistinguishable_from_no_match
    (classifier classifier2 : String → List (String × Option String) → Option String)
    (owner owner2 : SlashCommandsOwner) (request request2 : AgentRequest) (e : String)
    (hthrow : runSelected (resolveCommand classifier owner request).1 request
        = some (Except.error e))
    (hnomatch : (resolveCommand classifier2 owner2 request2).1 = Selection.unresolved) :
    ownerHandleRequestOrPrompt classifier owner request = none
      ∧ ownerHandleRequestOrPrompt classifier owner request
          = ownerHandleRequestOrPrompt classifier2 owner2 request2 := by
  have h1 : ownerHandleRequestOrPrompt classifier owner request = none := by
    unfold ownerHandleRequestOrPrompt
    rw [hthrow]
  have h2 : ownerHandleRequestOrPrompt classifier2 owner2 request2 = none := by
    unfold ownerHandleRequestOrPrompt
    rw [hnomatch]
    rfl
  exact ⟨h1, h1.trans h2.symm⟩

/-- Witness for claim C7: a `/boom` whose handler throws and an empty owner
that matches nothing produce the same unresolved outcome. -/
theorem throwing_handler_indistinguishable_from_no_match_witness :
    (runSelected
        (resolveCommand (fun _ _ => none) boomOwner
          { command := some "boom", userPrompt := "x" }).1
        { command := some "boom", userPrompt := "x" }
        = some (Except.error "boom")
      ∧ (resolveCommand (fun _ _ => none) emptyOwner
          { command := none, userPrompt := "" }).1 = Selection.unresolved)
    ∧ (ownerHandleRequestOrPrompt (fun _ _ => none) boomOwner
          { command := some "boom", userPrompt := "x" } = none
        ∧ ownerHandleRequestOrPrompt (fun _ _ => none) boomOwner
            { command := some "boom", userPrompt := "x" }
          = ownerHandleRequestOrPrompt (fun _ _ => none) emptyOwner
              { command := none, userPrompt := "" }) :=
  ⟨⟨rfl, rfl⟩,
   throwing_handler_indistinguishable_from_no_match (fun _ _ => none) (fun _ _ => none)
     boomOwner emptyOwner { command := some "boom", userPrompt := "x" }
     { command := none, userPrompt := "" } "boom" rfl rfl⟩

/-- A sequence of dispatches has one stamped result per input. -/
theorem runDispatches_length (st : CoordinatorState)
    (inputs : List (List String × SkillCommandResult)) :
    (runDispatches st inputs).1.length = inputs.length := by
  induction inputs generalizing st with
  | nil => simp [runDispatches]
  | cons p rest ih =>
    obtain ⟨chain, raw⟩ := p
    simp [runDispatches, ih]

/-- The result ids stamped by a sequence of dispatches are the consecutive
values of the coordinator's counter. -/
theorem runDispatches_ids (st : CoordinatorState)
    (inputs : List (List String × SkillCommandResult)) :
    ((runDispatches st inputs).1.map fun r => r.chatAgentResult.metadata.resultId)
      = (List.range inputs.length).map fun k => some (st.nextId + k) := by
  induction inputs generalizing st with
  | nil => simp [runDispatches]
  | cons p rest ih =>
    obtain ⟨chain, raw⟩ := p
    simp only [runDispatches, dispatchResult, List.map_cons, List.length_cons]
    rw [ih, List.range_succ_eq_map]
    simp only [List.map_cons, List.map_map, Nat.add_zero, List.cons.injEq]
    refine ⟨trivial, List.map_congr_left fun k _ => ?_⟩
    simp [Function.comp]
    omega

/-- Claim C8: every dispatch stamps a fresh `resultId` (N sequential
dispatches yield N pairwise distinct ids); the follow-up lookup answers with
the cached entry for a result whose metadata carries a known id, and with "no
follow-up" (`none`, not an error) for a result whose id is unknown to the
cache. -/
theorem coordinator_fresh_ids_and_followUp_cache
    (st : CoordinatorState) (inputs : List (List String × SkillCommandResult))
    (chain : List String) (raw : SkillCommandResult)
    (unknown : Nat) (orphan : ChatAgentResult)
    (hunknown : (st.followUpCache.find? fun e => e.1 == unknown) = none)
    (horphan : orphan.metadata.resultId = some unknown) :
    ((runDispatches st inputs).1.map fun r => r.chatAgentResult.metadata.resultId).Nodup
      ∧ (runDispatches st inputs).1.length = inputs.length
      ∧ getFollowUpForLastHandledSlashCommand (dispatchResult st chain raw).2
          (dispatchResult st chain raw).1.chatAgentResult = some (raw.followUp.getD [])
      ∧ getFollowUpForLastHandledSlashCommand st orphan = none := by
  refine ⟨?_, runDispatches_length st inputs, ?_, ?_⟩
  · rw [runDispatches_ids]
    refine List.Nodup.map ?_ (List.nodup_range _)
    intro a b h
    simp only [Option.some.injEq] at h
    omega
  · simp [getFollowUpForLastHandledSlashCommand, dispatchResult]
  · simp [getFollowUpForLastHandledSlashCommand, horphan, hunknown]

/-- Witness for claim C8: from a fresh coordinator, two dispatches stamp the
distinct ids 0 and 1, the stamped result's follow-ups are retrievable, and an
unknown id 7 yields no follow-up. -/
theorem coordinator_fresh_ids_and_followUp_cache_witness :
    ((({ nextId := 0, followUpCache := [] } : CoordinatorState).followUpCache.find?
          fun e => e.1 == 7) = none
      ∧ ({ metadata := { handlerChain := none, resultId := some 7 } }
          : ChatAgentResult).metadata.resultId = some 7)
    ∧ (((runDispatches { nextId := 0, followUpCache := [] }
            [(["a"], sampleResult), (["b"], sampleResult)]).1.map
            fun r => r.chatAgentResult.metadata.resultId).Nodup
        ∧ (runDispatches { nextId := 0, followUpCache := [] }
            [(["a"], sampleResult), (["b"], sampleResult)]).1.length
            = [(["a"], sampleResult), (["b"], sampleResult)].length
        ∧ getFollowUpForLastHandledSlashCommand
            (dispatchResult { nextId := 0, followUpCache := [] } ["a"] sampleResult).2
            (dispatchResult { nextId := 0, followUpCache := [] } ["a"] sampleResult).1.chatAgentResult
            = some (sampleResult.followUp.getD [])
        ∧ getFollowUpForLastHandledSlashCommand { nextId := 0, followUpCache := [] }
            { metadata := { handlerChain := none, resultId := some 7 } } = none) :=
  ⟨⟨rfl, rfl⟩,
   coordinator_fresh_ids_and_followUp_cache { nextId := 0, followUpCache := [] }
     [(["a"], sampleResult), (["b"], sampleResult)] ["a"] sampleResult 7
     { metadata := { handlerChain := none, resultId := some 7 } } rfl rfl⟩

/-- Nested dispatch appends, to the incoming chain, the top-level name
followed by the delegated names in invocation order. -/
theorem nestedDispatchChain_names (name : String) (b : SkillBehavior) (chain : List String) :
    nestedDispatchChain name b chain = chain ++ name :: innerNames b := by
  induction b generalizing name chain with
  | leaf => simp [nestedDispatchChain, innerNames]
  | delegate n inner ih => simp [nestedDispatchChain, innerNames, ih]

/-- The depth of a delegation is one more than the number of delegated
names. -/
theorem delegationDepth_eq_innerNames_length (b : SkillBehavior) :
    delegationDepth b = 1 + (innerNames b).length := by
  induction b with
  | leaf => simp [delegationDepth, innerNames]
  | delegate n inner ih =>
    simp [delegationDepth, innerNames, ih]
    omega

/-- Claim C9: the chain recorded by a dispatch grows by exactly one name per
nesting level — its length is the incoming chain's length plus the
delegation depth, with the outer name before the inner names — dispatch only
appends to the incoming chain, and when the chain starts empty its first
element is the command the Top-Level Router committed to; the router starts
every dispatch with the empty chain (each owner is invoked at chain `[]`). -/
theorem handlerChain_depth_invariant
    (name : String) (b : SkillBehavior) (chain : List String)
    (hidden bench user : OwnerBehavior) (maxFollowUps : Nat) (request : ChatRequest) :
    (nestedDispatchChain name b chain).length = chain.length + delegationDepth b
      ∧ nestedDispatchChain name b [] = name :: innerNames b
      ∧ nestedDispatchChain name b chain = chain ++ nestedDispatchChain name b []
      ∧ (handler hidden bench user maxFollowUps request).finalHandleResult
          = (firstSome [hidden.handleRequestOrPrompt (mkAgentRequest request) [],
              bench.handleRequestOrPrompt (mkAgentRequest request) [],
              user.handleRequestOrPrompt (mkAgentRequest request) []]).map
              (trimFollowUps maxFollowUps) := by
  refine ⟨?_, ?_, ?_, ?_⟩
  · rw [nestedDispatchChain_names]
    simp [delegationDepth_eq_innerNames_length]
    omega
  · simpa using nestedDispatchChain_names name b []
  · rw [nestedDispatchChain_names, nestedDispatchChain_names]
    simp
  · cases hh : hidden.handleRequestOrPrompt (mkAgentRequest request) [] <;>
      cases hb : bench.handleRequestOrPrompt (mkAgentRequest request) [] <;>
        cases hu : user.handleRequestOrPrompt (mkAgentRequest request) [] <;>
          simp [handler, runOwners, firstSome, hh, hb, hu]
